import Mathlib

/-!
Verification of the pusu.mod publish/subscribe client library.

The Go sources are embedded shallowly:
* bytes are natural numbers (every value written by the codec is reduced
  mod 256 where the Go type is a fixed-width integer);
* Go strings are lists of characters;
* Go maps are association lists with first-match lookup, insert-or-replace
  update and delete-all-bindings erase (the repository only ever stores one
  binding per key);
* fallible Go functions return an Except value whose error component is the
  Go error string (texts are abbreviated where no claim depends on them);
* the side effects that matter to the claims (handler invocations, callback
  invocations, messages placed on the send channel) are returned as explicit
  event lists or message lists.
-/

namespace pusu

/-! ## Message types (msgType.go)

Modelled from the spec: the current msgType.go is absent from the provided
sources (the file of that name is a stale earlier revision with a different
enumeration: MinMsgType, Identify, ..., UnsubscribeAll, MaxMsgType = 7,
which is contradicted by the tests in this repository - TestMsgTypeCheck and
TestMsgTypeAttr expect Invalid = 0, Start = 1 and valid Error / Ack names -
and by the client package which uses pusu.Start, pusu.Error and pusu.Ack).
The enumeration below follows the spec: Invalid=0, Start=1, Publish=2,
Subscribe=3, Unsubscribe=4, Ping=5, Error=6, Ack=7, MaxMsgType=8, with the
validity check accepting exactly the tags strictly between the sentinels. -/

/-- Sentinel below every valid message type. -/
def Invalid : Nat := 0

/-- The first message sent, identifying the connection. -/
def Start : Nat := 1

/-- A publication. -/
def Publish : Nat := 2

/-- A collection of subscription requests. -/
def Subscribe : Nat := 3

/-- Cancels subscriptions. -/
def Unsubscribe : Nat := 4

/-- A proof-of-life message. -/
def Ping : Nat := 5

/-- A server-reported error. -/
def Error : Nat := 6

/-- A server acknowledgement. -/
def Ack : Nat := 7

/-- Sentinel above every valid message type. -/
def MaxMsgType : Nat := 8

/-- MsgType represents the type of the client message (a Go uint8);
message types are natural numbers here.

Modelled from the spec: MsgType.Check returns a non-nil error exactly
when the message type is not strictly between the two sentinels. -/
def MsgType.Check (mt : Nat) : Except String Unit :=
  if mt ≤ Invalid then .error "bad message type - too small"
  else if mt ≥ MaxMsgType then .error "bad message type - too large"
  else .ok ()

/-! ## The wire codec (message.go) -/

/-- magicID is the introductory value at the start of every message
(0xB0AD1CEA). -/
def magicID : Nat := 0xB0AD1CEA

/-- Message represents a message between a pub/sub client and server.
MT is the message type (a Go uint8), MsgID the Go uint32 message
identifier, and Payload the message payload bytes. -/
structure Message where
  MT : Nat
  MsgID : Nat
  Payload : List Nat
deriving DecidableEq, Repr

/-- The two little-endian bytes of a Go uint16. -/
def le16 (n : Nat) : List Nat :=
  [n % 256, n / 256 % 256]

/-- The four little-endian bytes of a Go uint32. -/
def le32 (n : Nat) : List Nat :=
  [n % 256, n / 256 % 256, n / 65536 % 256, n / 16777216 % 256]

/-- Message.Write writes the message: it fails if the payload exceeds
MaxMessagePayload (65535) or the message type is invalid, and otherwise
emits the 11-byte little-endian header (magic, type, id, payload size)
followed by the payload bytes. -/
def Message.Write (m : Message) : Except String (List Nat) :=
  if m.Payload.length > 65535 then
    .error "pusu.Message.Write failure: bad payload - too big"
  else
    match MsgType.Check m.MT with
    | .error e => .error e
    | .ok _ =>
      .ok (le32 magicID ++ [m.MT] ++ le32 m.MsgID ++
        le16 m.Payload.length ++ m.Payload)

/-- ReadMsg reads the next message from the byte stream, returning the
message and the unconsumed bytes.  It fails when the 11-byte header cannot
be read, the magic value mismatches, the type tag fails validation, or the
announced payload size exceeds the bytes that follow. -/
def ReadMsg (bs : List Nat) : Except String (Message × List Nat) :=
  match bs with
  | b0 :: b1 :: b2 :: b3 :: mt :: i0 :: i1 :: i2 :: i3 :: s0 :: s1 :: rest =>
    if b0 + 256 * b1 + 65536 * b2 + 16777216 * b3 ≠ magicID then
      .error "pusu.ReadMsg failure: bad message start"
    else
      match MsgType.Check mt with
      | .error e => .error e
      | .ok _ =>
        let msgID := i0 + 256 * i1 + 65536 * i2 + 16777216 * i3
        let psize := s0 + 256 * s1
        if psize = 0 then
          .ok ({ MT := mt, MsgID := msgID, Payload := [] }, rest)
        else if psize ≤ rest.length then
          .ok ({ MT := mt, MsgID := msgID, Payload := rest.take psize },
            rest.drop psize)
        else
          .error "pusu.ReadMsg failure: error while reading message payload"
  | _ => .error "pusu.ReadMsg failure: error while reading message header"

/-! ## Topics (topic.go), with the Go standard path package functions the
source relies on (path.IsAbs, path.Clean, path.Dir) embedded as well. -/

/-- Characters of a Go string. -/
abbrev GoStr := List Char

/-- Embedding of Go path.IsAbs: a path is absolute when it starts with a
slash. -/
def pathIsAbs (s : GoStr) : Bool :=
  match s with
  | [] => false
  | c :: _ => c = '/'

/-- The index loop of the dot-dot case of Go path.Clean: starting from w,
step left while the position is above dotdot and does not hold a slash. -/
def cleanBackW (out : GoStr) (dotdot : Nat) : Nat → Nat
  | 0 => 0
  | w + 1 =>
    if w + 1 > dotdot ∧ out.getD (w + 1) ' ' ≠ '/' then cleanBackW out dotdot w
    else w + 1

/-- The dot-dot case of Go path.Clean: decrement the write position and
backtrack to the start of the last output segment, keeping at least dotdot
characters of the output. -/
def cleanBacktrack (out : GoStr) (dotdot : Nat) : GoStr :=
  out.take (cleanBackW out dotdot (out.length - 1))

/-- The main loop of Go path.Clean, processing the remaining input s with
the output buffer out; rooted records whether the path was absolute and
dotdot is the output position where dot-dot backtracking must stop.  In
the final case (a real path element) the head c is not a slash, so
dropping the copied segment from c :: rest is the same as dropping it
from rest. -/
def cleanLoop (s : GoStr) (rooted : Bool) (out : GoStr) (dotdot : Nat) :
    GoStr :=
  match s with
  | [] => out
  | c :: rest =>
    if c = '/' then
      cleanLoop rest rooted out dotdot
    else if c = '.' ∧ (rest = [] ∨ rest.head? = some '/') then
      cleanLoop rest rooted out dotdot
    else if c = '.' ∧ rest.head? = some '.' ∧
        (rest.tail = [] ∨ rest.tail.head? = some '/') then
      if out.length > dotdot then
        cleanLoop rest.tail rooted (cleanBacktrack out dotdot) dotdot
      else if !rooted then
        let out2 :=
          (if out.length > 0 then out ++ ['/'] else out) ++ ['.', '.']
        cleanLoop rest.tail rooted out2 out2.length
      else
        cleanLoop rest.tail rooted out dotdot
    else
      let out2 :=
        (if (rooted ∧ out.length ≠ 1) ∨ (¬rooted ∧ out.length ≠ 0) then
          out ++ ['/'] else out) ++ (c :: rest).takeWhile (fun x => x ≠ '/')
      cleanLoop (rest.dropWhile (fun x => x ≠ '/')) rooted out2 dotdot
termination_by s.length
decreasing_by
  all_goals simp only [List.length_cons]
  all_goals first
    | exact Nat.lt_succ_self _
    | exact Nat.lt_succ_of_le (List.tail_sublist _).length_le
    | exact Nat.lt_succ_of_le (List.dropWhile_sublist _).length_le

/-- Embedding of Go path.Clean (the Plan 9 cleanname algorithm) for
slash-separated paths. -/
def pathClean (s : GoStr) : GoStr :=
  if s = [] then ['.']
  else
    let rooted := pathIsAbs s
    let out :=
      if rooted then cleanLoop s.tail rooted ['/'] 1
      else cleanLoop s rooted [] 0
    if out = [] then ['.'] else out

/-- Embedding of Go path.Split, directory half: everything up to and
including the final slash (empty when there is no slash). -/
def dirPart (s : GoStr) : GoStr :=
  (s.reverse.dropWhile (fun x => x ≠ '/')).reverse

/-- Embedding of Go path.Dir: the cleaned directory part of the path. -/
def pathDir (s : GoStr) : GoStr :=
  pathClean (dirPart s)

/-- Topic represents a pub/sub topic (a Go string). -/
abbrev Topic := GoStr

/-- Topic.Check returns a non-nil error if the topic is invalid: it must be
an absolute path equal to its cleaned form. -/
def Topic.Check (t : Topic) : Except String Unit :=
  if ¬ pathIsAbs t then .error "bad topic - it must start with a slash"
  else if t ≠ pathClean t then .error "bad topic - unclean"
  else .ok ()

/-- The loop of Topic.SubTopics: repeatedly replace the topic by its
parent directory until a fixed point is reached, collecting the
intermediate topics.  The final branch is a termination guard only: it is
never taken when the loop is started on a topic accepted by Topic.Check
(for such topics each parent is strictly shorter until the root is
reached), and Topic.SubTopics only starts the loop on such topics. -/
def subTopicsFrom (t : Topic) : List Topic :=
  let newTopic := pathDir t
  if newTopic = t then []
  else if newTopic.length < t.length then newTopic :: subTopicsFrom newTopic
  else []
termination_by t.length
decreasing_by
  simp_all

/-- Topic.SubTopics progressively strips the last part of the topic path,
returning the topic followed by all of its ancestors up to the root; for a
topic failing Topic.Check it returns just the topic itself. -/
def Topic.SubTopics (t : Topic) : List Topic :=
  match Topic.Check t with
  | .error _ => [t]
  | .ok _ => t :: subTopicsFrom t

end pusu

namespace pusuclt

/-! ## Association lists standing for Go maps.

Go maps are embedded as association lists: lookup is first-match, update
is insert-or-replace, erase removes the key.  All repository code keeps at
most one binding per key. -/

/-- First-match lookup (a Go map read). -/
def lookupA {α β : Type} [DecidableEq α] : List (α × β) → α → Option β
  | [], _ => none
  | (k, v) :: rest, k2 => if k = k2 then some v else lookupA rest k2

/-- Insert-or-replace (a Go map write). -/
def updateA {α β : Type} [DecidableEq α] : List (α × β) → α → β →
    List (α × β)
  | [], k, v => [(k, v)]
  | (k2, v2) :: rest, k, v =>
    if k2 = k then (k, v) :: rest else (k2, v2) :: updateA rest k v

/-- Key removal (a Go map delete). -/
def eraseA {α β : Type} [DecidableEq α] (m : List (α × β)) (k : α) :
    List (α × β) :=
  m.filter (fun p => p.1 ≠ k)

/-- The keys of an association list. -/
def keysA {α β : Type} (m : List (α × β)) : List α :=
  m.map Prod.fst

/-! ## The handler set (handlerSet.go).

A Go MsgHandler function value is represented by its identity (the
address returned by MsgHandler.id, a natural number here); 0 is the
identity of the nil handler, and a 0 entry in handlersInOrder is a nil
slot. -/

/-- Error for adding a handler already in the set. -/
def errHandlerAlreadyAdded : String := "the handler has already been added"

/-- Error for removing a handler not in the set. -/
def errHandlerNotInSet : String := "the handler is not in the handler set"

/-- handlerSet holds the handlers subscribed to one topic:
handlersInOrder lists handler identities in subscription order (0 marks a
nil slot left by removal) and handlerMap maps a handler identity to its
index in handlersInOrder. -/
structure handlerSet where
  handlersInOrder : List Nat
  handlerMap : List (Nat × Nat)
deriving DecidableEq, Repr

/-- newHandlerSet returns a properly instantiated handlerSet. -/
def newHandlerSet : handlerSet :=
  { handlersInOrder := [], handlerMap := [] }

/-- handlerSet.handlerCount returns the number of handlers (the size of
the handler map, not of the slice). -/
def handlerSet.handlerCount (hs : handlerSet) : Nat :=
  hs.handlerMap.length

/-- handlerSet.removeTrailingNils counts the nil entries at the end of
handlersInOrder and truncates them, leaving interior nils in place. -/
def handlerSet.removeTrailingNils (hs : handlerSet) : handlerSet :=
  let count := (hs.handlersInOrder.reverse.takeWhile (fun h => h = 0)).length
  if count = 0 then hs
  else { hs with handlersInOrder :=
    hs.handlersInOrder.take (hs.handlersInOrder.length - count) }

/-- handlerSet.addHandler adds the handler, failing when its identity is
already in the handler map; otherwise the index of the new slot is
recorded and the handler is appended to the slice. -/
def handlerSet.addHandler (hs : handlerSet) (h : Nat) :
    Except String handlerSet :=
  match lookupA hs.handlerMap h with
  | some _ => .error errHandlerAlreadyAdded
  | none =>
    .ok { handlerMap := updateA hs.handlerMap h hs.handlersInOrder.length,
          handlersInOrder := hs.handlersInOrder ++ [h] }

/-- handlerSet.removeHandler removes the identified handler, failing when
it is not in the handler map; otherwise the map entry is deleted, the slot
is set to nil and trailing nils are trimmed. -/
def handlerSet.removeHandler (hs : handlerSet) (h : Nat) :
    Except String handlerSet :=
  match lookupA hs.handlerMap h with
  | none => .error errHandlerNotInSet
  | some hIdx =>
    .ok (handlerSet.removeTrailingNils
      { handlerMap := eraseA hs.handlerMap h,
        handlersInOrder := hs.handlersInOrder.set hIdx 0 })

/-- One handler-set operation, given by the handler identity it acts on. -/
inductive HOp where
  | add (h : Nat)
  | remove (h : Nat)
deriving DecidableEq, Repr

/-- The handler identity an operation acts on. -/
def HOp.handler : HOp → Nat
  | .add h => h
  | .remove h => h

/-- Apply one operation; a failing operation leaves the set unchanged. -/
def handlerSet.applyOp (hs : handlerSet) (op : HOp) : handlerSet :=
  match op with
  | .add h =>
    match hs.addHandler h with
    | .ok hs2 => hs2
    | .error _ => hs
  | .remove h =>
    match hs.removeHandler h with
    | .ok hs2 => hs2
    | .error _ => hs

/-- Apply a sequence of operations to the fresh handler set. -/
def handlerSet.applyOps (ops : List HOp) : handlerSet :=
  ops.foldl handlerSet.applyOp newHandlerSet

/-- The step of the specification-level contents of a handler set. -/
def addedStep (acc : List Nat) (op : HOp) : List Nat :=
  match op with
  | .add h => if h ∈ acc then acc else acc ++ [h]
  | .remove h => acc.filter (fun x => x ≠ h)

/-- Specification-level contents: the identities currently added after a
sequence of operations, where an add of a present identity and a remove of
an absent identity change nothing. -/
def addedAfter (ops : List HOp) : List Nat :=
  ops.foldl addedStep []

/-! ## The client (package pusuclt).

Protobuf payloads are modelled structurally: the spec fixes only the
semantic payload schemas (pusu.proto; the generated codec is not part of
the sources), so a message payload here is a structured value rather than
marshalled bytes, and a payload that fails to unmarshal is represented by
the constructor bad.  Callback and MsgHandler function values are
represented by their identities (natural numbers, 0 standing for the nil
MsgHandler); invoking one is recorded as an Event. -/

/-- errNoConn is the error returned by the public API when the client is
not connected. -/
def errNoConn : String := "the client is not connected to the server"

/-- The structured payload of a protocol message, following the payload
schemas of the spec. -/
inductive PayloadData where
  | subs (topics : List pusu.Topic)
  | pub (topic : pusu.Topic) (data : List Nat)
  | errText (e : String)
  | ping
  | empty
  | bad
deriving DecidableEq, Repr

/-- A protocol message with its payload kept structured. -/
structure PMsg where
  MT : Nat
  MsgID : Nat
  payload : PayloadData
deriving DecidableEq, Repr

/-- An observable side effect of the client: a topic-handler invocation,
a callback invocation (with the error passed, none for nil), or a ping
observer invocation. -/
inductive Event where
  | handlerCall (h : Nat) (t : pusu.Topic) (payload : List Nat)
  | cbCall (cb : Nat) (err : Option String)
  | pingCall
deriving DecidableEq, Repr

/-- TopicHandler associates a topic with a handler identity (0 is the nil
handler). -/
structure TopicHandler where
  Topic : pusu.Topic
  Handler : Nat
deriving DecidableEq, Repr

/-- TopicHandler.check: the Topic must pass its checks and the handler
must not be nil. -/
def TopicHandler.check (th : TopicHandler) : Except String Unit :=
  match pusu.Topic.Check th.Topic with
  | .error e => .error e
  | .ok _ =>
    if th.Handler = 0 then .error "the MsgHandler for the Topic is nil"
    else .ok ()

/-- The client state: the connected flag, the topic-to-handler-set map,
the message-id-to-callback map (callbacks by identity), the last message
id issued, and the configured ping handler (none when absent). -/
structure Client where
  connected : Bool
  handlers : List (pusu.Topic × handlerSet)
  callbacks : List (Nat × Nat)
  msgID : Nat
  pingHandler : Option Nat
deriving DecidableEq, Repr

/-- Client.addCallback stores the callback under the id if it is non-nil
(the nil callback is the argument none). -/
def Client.addCallback (c : Client) (id : Nat) (cb : Option Nat) : Client :=
  match cb with
  | none => c
  | some f => { c with callbacks := updateA c.callbacks id f }

/-- Client.getCallback removes and returns the callback for the id, or
returns none when it is absent. -/
def Client.getCallback (c : Client) (id : Nat) : Option Nat × Client :=
  match lookupA c.callbacks id with
  | some cb => (some cb, { c with callbacks := eraseA c.callbacks id })
  | none => (none, c)

/-- Client.callback takes the callback for the id from the table and,
when one was present, invokes it (in a new goroutine) with the error. -/
def Client.callback (c : Client) (id : Nat) (err : Option String) :
    Client × List Event :=
  match c.getCallback id with
  | (some cb, c2) => (c2, [.cbCall cb err])
  | (none, c2) => (c2, [])

/-- Client.addHandler checks the TopicHandler and adds its handler to the
per-topic handler set, reporting whether this is the first handler for
the topic. -/
def Client.addHandler (c : Client) (th : TopicHandler) :
    Except String (Bool × Client) :=
  match th.check with
  | .error e => .error e
  | .ok _ =>
    match lookupA c.handlers th.Topic with
    | some hs =>
      match hs.addHandler th.Handler with
      | .error e => .error e
      | .ok hs2 =>
        .ok (false, { c with handlers := updateA c.handlers th.Topic hs2 })
    | none =>
      match newHandlerSet.addHandler th.Handler with
      | .error e => .error e
      | .ok hs2 =>
        .ok (true, { c with handlers := updateA c.handlers th.Topic hs2 })

/-- The loop of Client.Subscribe: add each handler in order, collecting
the topics whose handler set is new; an error stops the loop and is
returned (additions made by earlier iterations are kept, as in the
source). -/
def subscribeLoop (c : Client) (ths : List TopicHandler)
    (subs : List pusu.Topic) :
    Except String Unit × Client × List pusu.Topic :=
  match ths with
  | [] => (.ok (), c, subs)
  | th :: rest =>
    match c.addHandler th with
    | .error e => (.error e, c, subs)
    | .ok (newTopic, c2) =>
      subscribeLoop c2 rest (if newTopic then subs ++ [th.Topic] else subs)

/-- Client.Subscribe: with no handlers it returns nil at once; a client
that is not connected gets errNoConn; otherwise the handlers are added
and one Subscribe message carrying the new topics is sent (with the
callback registered under its fresh id) only when some topic is new. -/
def Client.Subscribe (c : Client) (cb : Option Nat)
    (ths : List TopicHandler) :
    Except String Unit × Client × List PMsg :=
  if ths = [] then (.ok (), c, [])
  else if c.connected = false then (.error errNoConn, c, [])
  else
    match subscribeLoop c ths [] with
    | (.error e, c2, _) => (.error e, c2, [])
    | (.ok _, c2, subs) =>
      if subs = [] then (.ok (), c2, [])
      else
        let id := c2.msgID + 1
        let c3 := Client.addCallback { c2 with msgID := id } id cb
        (.ok (), c3,
          [{ MT := pusu.Subscribe, MsgID := id, payload := .subs subs }])

/-- The loop of Client.Unsubscribe: remove each handler in order, deleting
a topic whose handler set empties and collecting it for the wire message;
a missing topic or handler stops the loop with an error (removals made by
earlier iterations are kept, as in the source). -/
def unsubscribeLoop (c : Client) (ths : List TopicHandler)
    (subs : List pusu.Topic) :
    Except String Unit × Client × List pusu.Topic :=
  match ths with
  | [] => (.ok (), c, subs)
  | th :: rest =>
    match lookupA c.handlers th.Topic with
    | none =>
      (.error "there is no existing subscription for the Topic", c, subs)
    | some hs =>
      match hs.removeHandler th.Handler with
      | .error e => (.error e, c, subs)
      | .ok hs2 =>
        if hs2.handlerCount = 0 then
          unsubscribeLoop { c with handlers := eraseA c.handlers th.Topic }
            rest (subs ++ [th.Topic])
        else
          unsubscribeLoop
            { c with handlers := updateA c.handlers th.Topic hs2 } rest subs

/-- Client.Unsubscribe: symmetric to Subscribe; one Unsubscribe message
carrying the emptied topics is sent only when some topic lost its last
handler. -/
def Client.Unsubscribe (c : Client) (cb : Option Nat)
    (ths : List TopicHandler) :
    Except String Unit × Client × List PMsg :=
  if ths = [] then (.ok (), c, [])
  else if c.connected = false then (.error errNoConn, c, [])
  else
    match unsubscribeLoop c ths [] with
    | (.error e, c2, _) => (.error e, c2, [])
    | (.ok _, c2, subs) =>
      if subs = [] then (.ok (), c2, [])
      else
        let id := c2.msgID + 1
        let c3 := Client.addCallback { c2 with msgID := id } id cb
        (.ok (), c3,
          [{ MT := pusu.Unsubscribe, MsgID := id, payload := .subs subs }])

/-- Client.Publish: the topic is checked first; the payload is marshalled
before the connected check (marshalling a publish payload cannot fail in
the model); a client that is not connected gets errNoConn; otherwise one
Publish message is sent with a fresh id, registering the callback. -/
def Client.Publish (c : Client) (cb : Option Nat) (topic : pusu.Topic)
    (payload : List Nat) :
    Except String Unit × Client × List PMsg :=
  match pusu.Topic.Check topic with
  | .error e => (.error e, c, [])
  | .ok _ =>
    if c.connected = false then (.error errNoConn, c, [])
    else
      let id := c.msgID + 1
      let c2 := Client.addCallback { c with msgID := id } id cb
      (.ok (), c2,
        [{ MT := pusu.Publish, MsgID := id, payload := .pub topic payload }])

/-- The decoding of a Publish payload (proto.Unmarshal of
PublishMsgPayload): a structural publish payload decodes to its fields,
an empty payload decodes to the zero value, and undecodable bytes fail. -/
def decodePublishPayload : PayloadData → Option (pusu.Topic × List Nat)
  | .pub t p => some (t, p)
  | .empty => some ([], [])
  | _ => none

/-- Client.callMsgHandlers looks up the handler set for the topic and
calls every non-nil handler in subscription order. -/
def Client.callMsgHandlers (c : Client) (t : pusu.Topic)
    (payload : List Nat) : List Event :=
  match lookupA c.handlers t with
  | some hs =>
    (hs.handlersInOrder.filter (fun h => h ≠ 0)).map
      (fun h => Event.handlerCall h t payload)
  | none => []

/-- Client.handlePublish as written in the source: when the payload
unmarshals without error the function returns that nil error at once,
without calling any handler, and only on an unmarshalling failure does it
fall through and call the handlers (with the zero-valued payload). -/
def Client.handlePublish (c : Client) (msg : PMsg) :
    Except String Unit × List Event :=
  match decodePublishPayload msg.payload with
  | some _ => (.ok (), [])
  | none => (.ok (), c.callMsgHandlers [] [])

/-- Client.unMarshalErr constructs the error carried by an Error message;
the result is never nil. -/
def Client.unMarshalErr (msg : PMsg) : String :=
  if msg.MT ≠ pusu.Error then
    "cannot create an error from a message of this type"
  else
    match msg.payload with
    | .empty => "no error was passed in the Error message"
    | .errText e => e
    | _ => "could not unmarshal the Error message"

/-- Client.handleError extracts the error from the message, logs it and
returns it. -/
def Client.handleError (c : Client) (msg : PMsg) : String :=
  Client.unMarshalErr msg

/-- The decoding of a Ping payload. -/
def decodePingPayload : PayloadData → Option Unit
  | .ping => some ()
  | .empty => some ()
  | _ => none

/-- Client.handlePing: without a configured ping handler the message is
only logged; otherwise the payload is decoded (an error on failure) and
the ping observer is invoked in a new goroutine. -/
def Client.handlePing (c : Client) (msg : PMsg) :
    Except String Unit × List Event :=
  match c.pingHandler with
  | none => (.ok (), [])
  | some _ =>
    match decodePingPayload msg.payload with
    | none => (.error "could not unmarshal the Ping message", [])
    | some _ => (.ok (), [.pingCall])

/-- Client.handleMessageByType switches on the message type: an Error is
decoded, routed to the callback registered for its id, and returned as a
non-nil error; an Ack routes nil to the callback for its id; a Publish
goes to handlePublish and a Ping to handlePing; any other type is a
protocol error. -/
def Client.handleMessageByType (c : Client) (msg : PMsg) :
    Except String Unit × Client × List Event :=
  if msg.MT = pusu.Error then
    let e := c.handleError msg
    let r := c.callback msg.MsgID (some e)
    (.error e, r.1, r.2)
  else if msg.MT = pusu.Ack then
    let r := c.callback msg.MsgID none
    (.ok (), r.1, r.2)
  else if msg.MT = pusu.Publish then
    let r := c.handlePublish msg
    (r.1, c, r.2)
  else if msg.MT = pusu.Ping then
    let r := c.handlePing msg
    (r.1, c, r.2)
  else
    (.error "protocol error - unexpected message", c, [])

/-- Client.readConn processes the messages read from the connection in
order, dispatching each one; a handling error (or, outside the model, a
read failure) ends the loop. -/
def Client.readConn (c : Client) (incoming : List PMsg) :
    Client × List Event :=
  match incoming with
  | [] => (c, [])
  | msg :: rest =>
    match c.handleMessageByType msg with
    | (.error _, c2, evs) => (c2, evs)
    | (.ok _, c2, evs) =>
      let r := c2.readConn rest
      (r.1, evs ++ r.2)

/-- The topics carried by the Subscribe or Unsubscribe payloads of a list
of sent messages. -/
def sentSubsTopics (sent : List PMsg) : List pusu.Topic :=
  (sent.map (fun m =>
    match m.payload with
    | .subs ts => ts
    | _ => [])).flatten

/-! ## Concrete fixtures used by the concrete theorems below -/

/-- A connected client with two handlers (1 and 2) registered on topic
/a, used to exhibit concrete behaviour. -/
def sampleDeliveryClient : Client :=
  { connected := true,
    handlers := [(['/', 'a'],
      { handlersInOrder := [1, 2], handlerMap := [(1, 0), (2, 1)] })],
    callbacks := [], msgID := 0, pingHandler := none }

/-- A Publish message for topic /a whose payload unmarshals. -/
def samplePublishMsg : PMsg :=
  { MT := pusu.Publish, MsgID := 5, payload := .pub ['/', 'a'] [104, 105] }

/-- A connected client with callbacks 42 and 43 registered under the
message ids 7 and 8. -/
def sampleCallbackClient : Client :=
  { connected := true, handlers := [], callbacks := [(7, 42), (8, 43)],
    msgID := 8, pingHandler := none }

/-- A client whose connected flag is down. -/
def sampleDisconnectedClient : Client :=
  { connected := false, handlers := [], callbacks := [], msgID := 0,
    pingHandler := none }

end pusuclt

/-! ## Shared lemmas about the association-list map embedding -/

namespace pusuclt

theorem lookupA_updateA {α β : Type} [DecidableEq α] (m : List (α × β))
    (k k2 : α) (v : β) :
    lookupA (updateA m k v) k2 = if k = k2 then some v else lookupA m k2 := by
  induction m with
  | nil => simp [updateA, lookupA]
  | cons p rest ih =>
    obtain ⟨k3, v3⟩ := p
    by_cases h3 : k3 = k
    · subst h3
      by_cases h2 : k3 = k2 <;> simp [updateA, lookupA, h2]
    · by_cases h2 : k3 = k2
      · subst h2
        have : ¬ k = k3 := fun h => h3 h.symm
        simp [updateA, lookupA, h3, this]
      · simp [updateA, lookupA, h3, h2, ih]

theorem lookupA_eraseA {α β : Type} [DecidableEq α] (m : List (α × β))
    (k k2 : α) :
    lookupA (eraseA m k) k2 = if k = k2 then none else lookupA m k2 := by
  induction m with
  | nil => simp [eraseA, lookupA]
  | cons p rest ih
  => obtain ⟨k3, v3⟩ := p
     by_cases h3 : k3 = k
     · subst h3
       by_cases h2 : k3 = k2
       · subst h2
         simp [eraseA, lookupA] at ih ⊢
         simp [ih]
       · have : ¬ k3 = k2 := h2
         simp [eraseA, lookupA, this] at ih ⊢
         simp [ih]
     · by_cases h2 : k3 = k2
       · subst h2
         have : ¬ k = k3 := fun h => h3 h.symm
         simp [eraseA, lookupA, h3, this]
       · simp [eraseA, lookupA, h3, h2] at ih ⊢
         simp [ih]

theorem keysA_cons {α β : Type} (p : α × β) (m : List (α × β)) :
    keysA (p :: m) = p.1 :: keysA m := rfl

theorem lookupA_none_iff {α β : Type} [DecidableEq α] (m : List (α × β))
    (k : α) :
    lookupA m k = none ↔ k ∉ keysA m := by
  induction m with
  | nil => simp [lookupA, keysA]
  | cons p rest ih =>
    obtain ⟨k3, v3⟩ := p
    by_cases h3 : k3 = k
    · subst h3
      simp [lookupA, keysA]
    · rw [lookupA, if_neg h3, ih, keysA_cons]
      simp only [List.mem_cons, not_or]
      exact ⟨fun h => ⟨fun hk => h3 hk.symm, h⟩, fun h => h.2⟩

theorem keysA_updateA_absent {α β : Type} [DecidableEq α]
    (m : List (α × β)) (k : α) (v : β) (h : lookupA m k = none) :
    keysA (updateA m k v) = keysA m ++ [k] := by
  induction m with
  | nil => simp [updateA, keysA]
  | cons p rest ih =>
    obtain ⟨k3, v3⟩ := p
    simp [lookupA] at h
    by_cases h3 : k3 = k
    · subst h3
      simp at h
    · simp [updateA, keysA, h3] at ih ⊢
      exact ih (by simpa [h3] using h)

theorem keysA_updateA_present {α β : Type} [DecidableEq α]
    (m : List (α × β)) (k : α) (v v2 : β) (h : lookupA m k = some v2) :
    keysA (updateA m k v) = keysA m := by
  induction m with
  | nil => simp [lookupA] at h
  | cons p rest ih =>
    obtain ⟨k3, v3⟩ := p
    by_cases h3 : k3 = k
    · subst h3
      simp [updateA, keysA]
    · simp [lookupA, h3] at h
      simp [updateA, keysA, h3] at ih ⊢
      exact ih h

theorem keysA_eraseA {α β : Type} [DecidableEq α] (m : List (α × β))
    (k : α) :
    keysA (eraseA m k) = (keysA m).filter (fun x => x ≠ k) := by
  induction m with
  | nil => simp [eraseA, keysA]
  | cons p rest ih =>
    obtain ⟨k3, v3⟩ := p
    by_cases h3 : k3 = k
    · subst h3
      simp [eraseA, keysA, List.filter_cons] at ih ⊢
      exact ih
    · simp [eraseA, keysA, List.filter_cons, h3] at ih ⊢
      exact ih

theorem dropWhile_eq_drop {α : Type} (p : α → Bool) (l : List α) :
    l.dropWhile p = l.drop (l.takeWhile p).length := by
  induction l with
  | nil => rfl
  | cons a t ih =>
    by_cases h : p a
    · simp [List.dropWhile_cons, List.takeWhile_cons, h, ih]
    · simp [List.dropWhile_cons, List.takeWhile_cons, h]

theorem take_eq_rdropWhile {α : Type} (p : α → Bool) (l : List α) :
    l.take (l.length - (l.reverse.takeWhile p).length) = l.rdropWhile p := by
  rw [List.rdropWhile, dropWhile_eq_drop, List.reverse_drop]
  simp

theorem removeTrailingNils_handlerMap (hs : handlerSet) :
    hs.removeTrailingNils.handlerMap = hs.handlerMap := by
  unfold handlerSet.removeTrailingNils
  dsimp only
  split <;> rfl

theorem removeTrailingNils_handlersInOrder (hs : handlerSet) :
    hs.removeTrailingNils.handlersInOrder
      = hs.handlersInOrder.rdropWhile (fun h => h = 0) := by
  have hbase := take_eq_rdropWhile (fun h : Nat => h = 0) hs.handlersInOrder
  unfold handlerSet.removeTrailingNils
  dsimp only
  split
  · next hcount =>
    rw [hcount, Nat.sub_zero, List.take_length] at hbase
    exact hbase
  · exact hbase

theorem getLast?_rdropWhile_nils (l : List Nat) :
    (l.rdropWhile (fun h => h = 0)).getLast? ≠ some 0 := by
  cases hn : l.rdropWhile (fun h => h = 0) with
  | nil => simp
  | cons a t =>
    have hne : l.rdropWhile (fun h => h = 0) ≠ [] := by simp [hn]
    have hlast := List.rdropWhile_last_not (p := fun h => h = 0) (l := l) hne
    rw [← hn]
    intro hcontra
    rw [List.getLast?_eq_getLast_of_ne_nil hne] at hcontra
    have : (l.rdropWhile (fun h => h = 0)).getLast hne = 0 :=
      Option.some.inj hcontra
    simp [this] at hlast

theorem applyOp_keys (hs : handlerSet) (op : HOp) :
    keysA (hs.applyOp op).handlerMap = addedStep (keysA hs.handlerMap) op := by
  cases op with
  | add h =>
    unfold handlerSet.applyOp handlerSet.addHandler addedStep
    cases hl : lookupA hs.handlerMap h with
    | some v =>
      have hmem : h ∈ keysA hs.handlerMap := by
        by_contra hnm
        rw [(lookupA_none_iff _ _).mpr hnm] at hl
        cases hl
      simp [hl, hmem]
    | none =>
      have hmem : h ∉ keysA hs.handlerMap := (lookupA_none_iff _ _).mp hl
      simp [hl, hmem, keysA_updateA_absent _ _ _ hl]
  | remove h =>
    unfold handlerSet.applyOp handlerSet.removeHandler addedStep
    cases hl : lookupA hs.handlerMap h with
    | none =>
      have hmem : h ∉ keysA hs.handlerMap := (lookupA_none_iff _ _).mp hl
      simp [hl]
      symm
      rw [List.filter_eq_self]
      intro a ha
      have hne : a ≠ h := fun heq => hmem (heq ▸ ha)
      simp [hne]
    | some idx =>
      simp [hl, removeTrailingNils_handlerMap, keysA_eraseA]

theorem foldl_applyOp_keys (ops : List HOp) (hs : handlerSet) :
    keysA (ops.foldl handlerSet.applyOp hs).handlerMap
      = ops.foldl addedStep (keysA hs.handlerMap) := by
  induction ops generalizing hs with
  | nil => rfl
  | cons op rest ih => simp [List.foldl_cons, ih, applyOp_keys]

theorem applyOp_no_trailing (hs : handlerSet) (op : HOp)
    (hnz : op.handler ≠ 0)
    (hprev : hs.handlersInOrder.getLast? ≠ some 0) :
    (hs.applyOp op).handlersInOrder.getLast? ≠ some 0 := by
  cases op with
  | add h =>
    simp only [HOp.handler] at hnz
    cases hl : lookupA hs.handlerMap h with
    | some v =>
      have hred : (hs.applyOp (HOp.add h)).handlersInOrder
          = hs.handlersInOrder := by
        simp [handlerSet.applyOp, handlerSet.addHandler, hl]
      rw [hred]
      exact hprev
    | none =>
      have hred : (hs.applyOp (HOp.add h)).handlersInOrder
          = hs.handlersInOrder ++ [h] := by
        simp [handlerSet.applyOp, handlerSet.addHandler, hl]
      rw [hred, List.getLast?_concat]
      simp only [ne_eq, Option.some.injEq]
      exact hnz
  | remove h =>
    cases hl : lookupA hs.handlerMap h with
    | none =>
      have hred : (hs.applyOp (HOp.remove h)).handlersInOrder
          = hs.handlersInOrder := by
        simp [handlerSet.applyOp, handlerSet.removeHandler, hl]
      rw [hred]
      exact hprev
    | some idx =>
      have hred : (hs.applyOp (HOp.remove h)).handlersInOrder
          = (hs.handlersInOrder.set idx 0).rdropWhile (fun x => x = 0) := by
        simp [handlerSet.applyOp, handlerSet.removeHandler, hl,
          removeTrailingNils_handlersInOrder]
      rw [hred]
      exact getLast?_rdropWhile_nils _

theorem foldl_applyOp_no_trailing (ops : List HOp) (hs : handlerSet)
    (hnz : ∀ op ∈ ops, op.handler ≠ 0)
    (hprev : hs.handlersInOrder.getLast? ≠ some 0) :
    (ops.foldl handlerSet.applyOp hs).handlersInOrder.getLast? ≠ some 0 := by
  induction ops generalizing hs with
  | nil => exact hprev
  | cons op rest ih =>
    rw [List.foldl_cons]
    exact ih _ (fun o ho => hnz o (List.mem_cons_of_mem _ ho))
      (applyOp_no_trailing hs op (hnz op (List.mem_cons_self _ _)) hprev)

theorem applyOp_stable_index (hs : handlerSet) (op : HOp) (h i j : Nat)
    (h1 : lookupA hs.handlerMap h = some i)
    (h2 : lookupA (hs.applyOp op).handlerMap h = some j) : i = j := by
  cases op with
  | add h3 =>
    cases hl : lookupA hs.handlerMap h3 with
    | some v =>
      have hred : (hs.applyOp (HOp.add h3)).handlerMap = hs.handlerMap := by
        simp [handlerSet.applyOp, handlerSet.addHandler, hl]
      rw [hred, h1] at h2
      exact Option.some.inj h2
    | none =>
      have hred : (hs.applyOp (HOp.add h3)).handlerMap
          = updateA hs.handlerMap h3 hs.handlersInOrder.length := by
        simp [handlerSet.applyOp, handlerSet.addHandler, hl]
      rw [hred, lookupA_updateA] at h2
      by_cases heq : h3 = h
      · subst heq
        rw [h1] at hl
        cases hl
      · rw [if_neg heq, h1] at h2
        exact Option.some.inj h2
  | remove h3 =>
    cases hl : lookupA hs.handlerMap h3 with
    | none =>
      have hred : (hs.applyOp (HOp.remove h3)).handlerMap = hs.handlerMap := by
        simp [handlerSet.applyOp, handlerSet.removeHandler, hl]
      rw [hred, h1] at h2
      exact Option.some.inj h2
    | some idx =>
      have hred : (hs.applyOp (HOp.remove h3)).handlerMap
          = eraseA hs.handlerMap h3 := by
        simp [handlerSet.applyOp, handlerSet.removeHandler, hl,
          removeTrailingNils_handlerMap]
      rw [hred, lookupA_eraseA] at h2
      by_cases heq : h3 = h
      · subst heq
        rw [if_pos rfl] at h2
        cases h2
      · rw [if_neg heq, h1] at h2
        exact Option.some.inj h2


theorem lookupA_some_mem {α β : Type} [DecidableEq α] (m : List (α × β))
    (k : α) (v : β) (h : lookupA m k = some v) : k ∈ keysA m := by
  by_contra hnm
  rw [(lookupA_none_iff _ _).mpr hnm] at h
  cases h

theorem addHandler_fields (c : Client) (th : TopicHandler) (b : Bool)
    (c2 : Client) (h : c.addHandler th = .ok (b, c2)) :
    c2.callbacks = c.callbacks ∧ c2.msgID = c.msgID ∧
    c2.connected = c.connected ∧
    (b = true → keysA c2.handlers = keysA c.handlers ++ [th.Topic] ∧
      th.Topic ∉ keysA c.handlers) ∧
    (b = false → keysA c2.handlers = keysA c.handlers) := by
  unfold Client.addHandler at h
  split at h
  · cases h
  · split at h
    · next hs hl =>
      split at h
      · cases h
      · next hs2 hadd =>
        injection h with hpr
        injection hpr with hb hc
        subst hc
        subst hb
        refine ⟨rfl, rfl, rfl, ?_, ?_⟩
        · intro hcontra
          simp at hcontra
        · intro _
          exact keysA_updateA_present c.handlers th.Topic hs2 hs hl
    · next hl =>
      split at h
      · cases h
      · next hs2 hadd =>
        injection h with hpr
        injection hpr with hb hc
        subst hc
        subst hb
        refine ⟨rfl, rfl, rfl, ?_, ?_⟩
        · intro _
          exact ⟨keysA_updateA_absent c.handlers th.Topic hs2 hl,
            (lookupA_none_iff _ _).mp hl⟩
        · intro hcontra
          simp at hcontra

theorem subscribeLoop_ok (ths : List TopicHandler) :
    ∀ (c c2 : Client) (subs0 subs2 : List pusu.Topic),
    subscribeLoop c ths subs0 = (.ok (), c2, subs2) →
    ∃ delta, subs2 = subs0 ++ delta ∧
      keysA c2.handlers = keysA c.handlers ++ delta ∧
      (∀ t ∈ delta, t ∉ keysA c.handlers ∧
        t ∈ ths.map TopicHandler.Topic) ∧
      c2.callbacks = c.callbacks ∧ c2.msgID = c.msgID ∧
      c2.connected = c.connected := by
  induction ths with
  | nil =>
    intro c c2 subs0 subs2 h
    rw [subscribeLoop] at h
    injection h with h1 h2
    injection h2 with hc hs
    subst hc
    subst hs
    exact ⟨[], by simp⟩
  | cons th rest ih =>
    intro c c2 subs0 subs2 h
    rw [subscribeLoop] at h
    split at h
    · cases h
    · next newTopic c1 heq =>
      obtain ⟨hcb1, hid1, hcn1, htrue, hfalse⟩ :=
        addHandler_fields c th newTopic c1 heq
      obtain ⟨delta2, hsubs2, hkeys2, hmem2, hcb2, hid2, hcn2⟩ :=
        ih c1 c2 _ subs2 h
      cases newTopic with
      | true =>
        obtain ⟨hk1, hnm1⟩ := htrue rfl
        refine ⟨th.Topic :: delta2, ?_, ?_, ?_, ?_, ?_, ?_⟩
        · simpa using hsubs2
        · rw [hkeys2, hk1]
          simp
        · intro t ht
          rcases List.mem_cons.mp ht with hteq | htd
          · subst hteq
            exact ⟨hnm1, by simp⟩
          · obtain ⟨hnm, hmem⟩ := hmem2 t htd
            rw [hk1] at hnm
            simp at hnm
            exact ⟨hnm.1, by simp [hmem]⟩
        · rw [hcb2, hcb1]
        · rw [hid2, hid1]
        · rw [hcn2, hcn1]
      | false =>
        have hk1 := hfalse rfl
        refine ⟨delta2, hsubs2, ?_, ?_, ?_, ?_, ?_⟩
        · rw [hkeys2, hk1]
        · intro t ht
          obtain ⟨hnm, hmem⟩ := hmem2 t ht
          rw [hk1] at hnm
          exact ⟨hnm, by simp [hmem]⟩
        · rw [hcb2, hcb1]
        · rw [hid2, hid1]
        · rw [hcn2, hcn1]

theorem unsubscribeLoop_ok (ths : List TopicHandler) :
    ∀ (c c2 : Client) (subs0 subs2 : List pusu.Topic),
    unsubscribeLoop c ths subs0 = (.ok (), c2, subs2) →
    ∃ delta, subs2 = subs0 ++ delta ∧
      (∀ t, t ∈ keysA c2.handlers ↔
        (t ∈ keysA c.handlers ∧ t ∉ delta)) ∧
      (∀ t ∈ delta, t ∈ keysA c.handlers ∧
        t ∈ ths.map TopicHandler.Topic) ∧
      c2.callbacks = c.callbacks ∧ c2.msgID = c.msgID ∧
      c2.connected = c.connected := by
  induction ths with
  | nil =>
    intro c c2 subs0 subs2 h
    rw [unsubscribeLoop] at h
    injection h with h1 h2
    injection h2 with hc hs
    subst hc
    subst hs
    exact ⟨[], by simp⟩
  | cons th rest ih =>
    intro c c2 subs0 subs2 h
    rw [unsubscribeLoop] at h
    split at h
    · cases h
    · next hs hl =>
      split at h
      · cases h
      · next hs2 hrem =>
        split at h
        · -- the handler set emptied: the topic is deleted and collected
          obtain ⟨delta2, hsubs2, hkeys2, hmem2, hcb2, hid2, hcn2⟩ :=
            ih _ c2 _ subs2 h
          refine ⟨th.Topic :: delta2, ?_, ?_, ?_, hcb2, hid2, hcn2⟩
          · simpa using hsubs2
          · intro t
            rw [hkeys2 t]
            constructor
            · intro ⟨htk, htd⟩
              rw [keysA_eraseA] at htk
              simp only [List.mem_filter, decide_eq_true_eq] at htk
              refine ⟨htk.1, ?_⟩
              simp only [List.mem_cons, not_or]
              exact ⟨by simpa using htk.2, htd⟩
            · intro ⟨htk, htd⟩
              simp only [List.mem_cons, not_or] at htd
              rw [keysA_eraseA]
              simp only [List.mem_filter, decide_eq_true_eq]
              exact ⟨⟨htk, by simpa using htd.1⟩, htd.2⟩
          · intro t ht
            rcases List.mem_cons.mp ht with hteq | htd
            · subst hteq
              exact ⟨lookupA_some_mem _ _ _ hl, by simp⟩
            · obtain ⟨htk, hmem⟩ := hmem2 t htd
              rw [keysA_eraseA] at htk
              simp only [List.mem_filter, decide_eq_true_eq] at htk
              exact ⟨htk.1, by simp [hmem]⟩
        · -- handlers remain: the map binding is replaced in place
          obtain ⟨delta2, hsubs2, hkeys2, hmem2, hcb2, hid2, hcn2⟩ :=
            ih _ c2 _ subs2 h
          have hku : keysA (updateA c.handlers th.Topic hs2)
              = keysA c.handlers :=
            keysA_updateA_present c.handlers th.Topic hs2 hs hl
          refine ⟨delta2, hsubs2, ?_, ?_, hcb2, hid2, hcn2⟩
          · intro t
            rw [hkeys2 t]
            simp [hku]
          · intro t ht
            obtain ⟨htk, hmem⟩ := hmem2 t ht
            rw [hku] at htk
            exact ⟨htk, by simp [hmem]⟩

theorem addCallback_handlers (c : Client) (id : Nat) (cb : Option Nat) :
    (c.addCallback id cb).handlers = c.handlers := by
  cases cb <;> rfl

end pusuclt

/-! ## Theorems for the claims -/

/-- C3: for every message whose type passes the message-type validity
check, whose MsgID is an unsigned 32-bit value, and whose payload has
length at most 65535 bytes, Message.Write to a buffer followed by ReadMsg
from that same buffer succeeds and reproduces the (type, id, payload)
triple exactly (with no bytes left over). -/
theorem C3_write_read_roundtrip (m : pusu.Message)
    (h1 : pusu.MsgType.Check m.MT = .ok ()) (h2 : m.MsgID < 4294967296)
    (h3 : m.Payload.length ≤ 65535) :
    ∃ bs, m.Write = .ok bs ∧ pusu.ReadMsg bs = .ok (m, []) := by
  refine ⟨pusu.le32 pusu.magicID ++ [m.MT] ++ pusu.le32 m.MsgID ++
    pusu.le16 m.Payload.length ++ m.Payload, ?_, ?_⟩
  · unfold pusu.Message.Write
    rw [if_neg (by omega), h1]
  · unfold pusu.ReadMsg pusu.le32 pusu.le16 pusu.magicID
    simp only [List.cons_append, List.nil_append]
    rw [if_neg (by decide), h1]
    have hid : m.MsgID % 256 + 256 * (m.MsgID / 256 % 256) +
        65536 * (m.MsgID / 65536 % 256) +
        16777216 * (m.MsgID / 16777216 % 256) = m.MsgID := by omega
    have hsz : m.Payload.length % 256 +
        256 * (m.Payload.length / 256 % 256) = m.Payload.length := by omega
    simp only [hid, hsz]
    by_cases hz : m.Payload.length = 0
    · have hpl : m.Payload = [] := List.length_eq_zero.mp hz
      obtain ⟨mt, mid, pl⟩ := m
      simp only at hpl
      subst hpl
      simp [hz]
    · rw [if_neg hz, if_pos (le_refl _)]
      simp

/-- Witness for C3 at the concrete message (Start, 42, "hello"-bytes). -/
theorem C3_write_read_roundtrip_witness :
    ∃ bs, pusu.Message.Write ⟨1, 42, [104, 101, 108, 108, 111]⟩ = .ok bs ∧
      pusu.ReadMsg bs = .ok (⟨1, 42, [104, 101, 108, 108, 111]⟩, []) :=
  C3_write_read_roundtrip ⟨1, 42, [104, 101, 108, 108, 111]⟩ rfl
    (by decide) (by decide)

/-- C4: the message-type enumeration assigns Invalid=0, Start=1, Publish=2,
Subscribe=3, Unsubscribe=4, Ping=5, Error=6, Ack=7, MaxMsgType=8, and the
validity check accepts exactly the tags strictly between the two
sentinels, so Invalid and MaxMsgType are never valid on the wire. -/
theorem C4_msg_type_enumeration :
    (pusu.Invalid = 0 ∧ pusu.Start = 1 ∧ pusu.Publish = 2 ∧
      pusu.Subscribe = 3 ∧ pusu.Unsubscribe = 4 ∧ pusu.Ping = 5 ∧
      pusu.Error = 6 ∧ pusu.Ack = 7 ∧ pusu.MaxMsgType = 8) ∧
    (∀ mt : Nat,
      pusu.MsgType.Check mt = .ok () ↔
        (pusu.Invalid < mt ∧ mt < pusu.MaxMsgType)) ∧
    pusu.MsgType.Check pusu.Invalid ≠ .ok () ∧
    pusu.MsgType.Check pusu.MaxMsgType ≠ .ok () := by
  refine ⟨⟨rfl, rfl, rfl, rfl, rfl, rfl, rfl, rfl, rfl⟩, fun mt => ?_,
    fun h => Except.noConfusion h, fun h => Except.noConfusion h⟩
  unfold pusu.MsgType.Check pusu.Invalid pusu.MaxMsgType
  constructor
  · intro h
    split at h
    · exact Except.noConfusion h
    · split at h
      · exact Except.noConfusion h
      · omega
  · intro h
    rw [if_neg (by omega), if_neg (by omega)]

/-- C5: Topic.Check accepts exactly the strings that are absolute and
equal their cleaned canonical form, rejecting all others with an error;
SubTopics of /a/b/c is exactly the four-element ancestor chain, SubTopics
of / is just the root, and SubTopics of a topic failing Check is the
single-element chain holding the input unchanged. -/
theorem C5_topic_check_subtopics :
    (∀ t : pusu.Topic, pusu.Topic.Check t = .ok () ↔
      (pusu.pathIsAbs t = true ∧ t = pusu.pathClean t)) ∧
    (∀ t : pusu.Topic, pusu.Topic.Check t ≠ .ok () →
      ∃ e, pusu.Topic.Check t = .error e) ∧
    pusu.Topic.SubTopics ['/', 'a', '/', 'b', '/', 'c'] =
      [['/', 'a', '/', 'b', '/', 'c'], ['/', 'a', '/', 'b'], ['/', 'a'],
        ['/']] ∧
    pusu.Topic.SubTopics ['/'] = [['/']] ∧
    (∀ (t : pusu.Topic) (e : String),
      pusu.Topic.Check t = .error e → pusu.Topic.SubTopics t = [t]) := by
  refine ⟨fun t => ?_, fun t h => ?_, ?_, ?_, fun t e h => ?_⟩
  · unfold pusu.Topic.Check
    by_cases h1 : pusu.pathIsAbs t
    · by_cases h2 : t = pusu.pathClean t
      · rw [if_neg (not_not_intro h1), if_neg (not_not_intro h2)]
        exact iff_of_true rfl ⟨h1, h2⟩
      · rw [if_neg (not_not_intro h1), if_pos h2]
        exact iff_of_false (fun hc => Except.noConfusion hc)
          (fun hc => h2 hc.2)
    · rw [if_pos h1]
      exact ⟨fun hcontra => Except.noConfusion hcontra,
        fun hcontra => absurd hcontra.1 h1⟩
  · cases hc : pusu.Topic.Check t with
    | ok u => exact absurd (by rw [hc]) h
    | error e => exact ⟨e, rfl⟩
  · simp [pusu.Topic.SubTopics, pusu.Topic.Check, pusu.subTopicsFrom,
      pusu.pathDir, pusu.dirPart, pusu.pathClean, pusu.pathIsAbs,
      pusu.cleanLoop]
  · simp [pusu.Topic.SubTopics, pusu.Topic.Check, pusu.subTopicsFrom,
      pusu.pathDir, pusu.dirPart, pusu.pathClean, pusu.pathIsAbs,
      pusu.cleanLoop]
  · simp [pusu.Topic.SubTopics, h]

/-- Witness for C5: the invalid topic "xxx" yields itself as the only
sub-topic. -/
theorem C5_topic_check_subtopics_witness :
    pusu.Topic.SubTopics ['x', 'x', 'x'] = [['x', 'x', 'x']] :=
  C5_topic_check_subtopics.2.2.2.2 ['x', 'x', 'x']
    "bad topic - it must start with a slash"
    (by simp [pusu.Topic.Check, pusu.pathIsAbs])

/-- C7: over every interleaving of addHandler and removeHandler
operations on (non-nil) handler identities, with failing operations
changing nothing: the handler count equals the number of currently-added
identities, the ordered slice never ends in a nil slot, and the slot index
recorded for a handler that survives one more operation never changes. -/
theorem C7_handler_set_invariants (ops : List pusuclt.HOp)
    (hnz : ∀ op ∈ ops, pusuclt.HOp.handler op ≠ 0) :
    (pusuclt.handlerSet.applyOps ops).handlerCount
        = (pusuclt.addedAfter ops).length ∧
    (pusuclt.handlerSet.applyOps ops).handlersInOrder.getLast? ≠ some 0 ∧
    (∀ (op : pusuclt.HOp) (h i j : Nat),
      pusuclt.lookupA (pusuclt.handlerSet.applyOps ops).handlerMap h
          = some i →
      pusuclt.lookupA
          ((pusuclt.handlerSet.applyOps ops).applyOp op).handlerMap h
          = some j →
      i = j) := by
  refine ⟨?_, ?_, fun op h i j h1 h2 =>
    pusuclt.applyOp_stable_index _ op h i j h1 h2⟩
  · have hk := pusuclt.foldl_applyOp_keys ops pusuclt.newHandlerSet
    have hlen : (pusuclt.keysA
        (pusuclt.handlerSet.applyOps ops).handlerMap).length
        = (pusuclt.handlerSet.applyOps ops).handlerMap.length := by
      simp [pusuclt.keysA]
    unfold pusuclt.handlerSet.handlerCount pusuclt.addedAfter
    rw [← hlen]
    unfold pusuclt.handlerSet.applyOps
    rw [hk]
    rfl
  · exact pusuclt.foldl_applyOp_no_trailing ops pusuclt.newHandlerSet hnz
      (by simp [pusuclt.newHandlerSet])

/-- Witness for C7 at a concrete interleaving: two adds, a duplicate add
that fails, a remove of an absent handler that fails, and a remove of the
last handler. -/
theorem C7_handler_set_invariants_witness :
    (pusuclt.handlerSet.applyOps
        [.add 1, .add 2, .add 1, .remove 3, .remove 2]).handlerCount
      = (pusuclt.addedAfter
        [.add 1, .add 2, .add 1, .remove 3, .remove 2]).length ∧
    (pusuclt.handlerSet.applyOps
        [.add 1, .add 2, .add 1, .remove 3,
          .remove 2]).handlersInOrder.getLast? ≠ some 0 :=
  ⟨(C7_handler_set_invariants
      [.add 1, .add 2, .add 1, .remove 3, .remove 2] (by decide)).1,
    (C7_handler_set_invariants
      [.add 1, .add 2, .add 1, .remove 3, .remove 2] (by decide)).2.1⟩

/-- C1: the claim says a Publish whose payload unmarshals invokes each
live handler once in subscription order; the code does the opposite.  In
handlePublish the error check is inverted (err == nil returns at once),
so for a well-formed Publish no handler is invoked at all, while
callMsgHandlers, had it been reached, would have invoked handlers 1 and 2
in order. -/
theorem C1_publish_delivery_bug :
    pusuclt.Client.handleMessageByType pusuclt.sampleDeliveryClient
        pusuclt.samplePublishMsg
      = (.ok (), pusuclt.sampleDeliveryClient, []) ∧
    pusuclt.Client.callMsgHandlers pusuclt.sampleDeliveryClient
        ['/', 'a'] [104, 105]
      = [.handlerCall 1 ['/', 'a'] [104, 105],
          .handlerCall 2 ['/', 'a'] [104, 105]] :=
  ⟨rfl, rfl⟩

/-- C2: the claim says a well-formed server Error keyed to id M invokes
the callback for M with a non-nil error and the reader keeps reading; the
code invokes the callback (here 42 with "denied") but
handleMessageByType returns the server error, so readConn breaks out of
its loop: the following Ack for id 8 is never processed and callback 43
stays in the table. -/
theorem C2_error_terminates_reader :
    pusuclt.Client.readConn pusuclt.sampleCallbackClient
        [{ MT := pusu.Error, MsgID := 7, payload := .errText "denied" },
          { MT := pusu.Ack, MsgID := 8, payload := .empty }]
      = ({ pusuclt.sampleCallbackClient with callbacks := [(8, 43)] },
          [.cbCall 42 (some "denied")]) :=
  rfl

/-- C8: an Ack (respectively Error) bearing id X invokes exactly the one
callback registered under X with nil (respectively the decoded server
error) and removes the entry, a second response for X invokes nothing,
and registering a nil callback stores nothing. -/
theorem C8_callback_routing :
    (∀ (c : pusuclt.Client) (X cb : Nat) (pl : pusuclt.PayloadData),
      pusuclt.lookupA c.callbacks X = some cb →
      pusuclt.Client.handleMessageByType c ⟨pusu.Ack, X, pl⟩
        = (.ok (), { c with callbacks := pusuclt.eraseA c.callbacks X },
            [.cbCall cb none])) ∧
    (∀ (c : pusuclt.Client) (X cb : Nat) (txt : String),
      pusuclt.lookupA c.callbacks X = some cb →
      pusuclt.Client.handleMessageByType c ⟨pusu.Error, X, .errText txt⟩
        = (.error txt,
            { c with callbacks := pusuclt.eraseA c.callbacks X },
            [.cbCall cb (some txt)])) ∧
    (∀ (c : pusuclt.Client) (X : Nat),
      pusuclt.lookupA (pusuclt.eraseA c.callbacks X) X = none) ∧
    (∀ (c : pusuclt.Client) (X : Nat) (pl : pusuclt.PayloadData) (t : String),
      pusuclt.lookupA c.callbacks X = none →
      pusuclt.Client.handleMessageByType c ⟨pusu.Ack, X, pl⟩
          = (.ok (), c, []) ∧
      pusuclt.Client.handleMessageByType c ⟨pusu.Error, X, .errText t⟩
          = (.error t, c, [])) ∧
    (∀ (c : pusuclt.Client) (id : Nat),
      pusuclt.Client.addCallback c id none = c) := by
  refine ⟨fun c X cb pl h => ?_, fun c X cb txt h => ?_, fun c X => ?_,
    fun c X pl t h => ⟨?_, ?_⟩, fun c id => rfl⟩
  · simp [pusuclt.Client.handleMessageByType, pusuclt.Client.callback,
      pusuclt.Client.getCallback, h, pusu.Ack, pusu.Error]
  · simp [pusuclt.Client.handleMessageByType, pusuclt.Client.callback,
      pusuclt.Client.getCallback, pusuclt.Client.handleError,
      pusuclt.Client.unMarshalErr, h, pusu.Error]
  · rw [pusuclt.lookupA_eraseA, if_pos rfl]
  · simp [pusuclt.Client.handleMessageByType, pusuclt.Client.callback,
      pusuclt.Client.getCallback, h, pusu.Ack, pusu.Error]
  · simp [pusuclt.Client.handleMessageByType, pusuclt.Client.callback,
      pusuclt.Client.getCallback, pusuclt.Client.handleError,
      pusuclt.Client.unMarshalErr, h, pusu.Error]

/-- Witness for C8 at a concrete client: the Ack for id 7 invokes
callback 42 with nil and removes it from the table. -/
theorem C8_callback_routing_witness :
    pusuclt.Client.handleMessageByType pusuclt.sampleCallbackClient
        ⟨pusu.Ack, 7, .empty⟩
      = (.ok (),
          { pusuclt.sampleCallbackClient with
            callbacks := pusuclt.eraseA
              pusuclt.sampleCallbackClient.callbacks 7 },
          [.cbCall 42 none]) :=
  C8_callback_routing.1 pusuclt.sampleCallbackClient 7 42 .empty rfl

/-- C9 counterexample: the claim says every Subscribe call on a
disconnected client returns NotConnected, for any arguments; calling
Subscribe with an empty handler list on a disconnected client returns
nil instead. -/
theorem C9_not_connected_counterexample :
    (pusuclt.Client.Subscribe pusuclt.sampleDisconnectedClient none []).1
        = Except.ok () ∧
    (pusuclt.Client.Subscribe pusuclt.sampleDisconnectedClient none []).1
        ≠ Except.error pusuclt.errNoConn :=
  ⟨rfl, fun h => Except.noConfusion h⟩

/-- C9 amended: on a client whose connected flag is false, Subscribe and
Unsubscribe with a non-empty handler list, and Publish with a topic
passing Topic.Check, return the NotConnected error and leave the client
state unchanged (with nothing sent); calls with an empty handler list
return nil, and Publish with an invalid topic returns the topic error. -/
theorem C9_not_connected_amended :
    (∀ (c : pusuclt.Client) (cb : Option Nat)
        (ths : List pusuclt.TopicHandler),
      c.connected = false → ths ≠ [] →
      pusuclt.Client.Subscribe c cb ths
          = (.error pusuclt.errNoConn, c, []) ∧
      pusuclt.Client.Unsubscribe c cb ths
          = (.error pusuclt.errNoConn, c, [])) ∧
    (∀ (c : pusuclt.Client) (cb : Option Nat) (t : pusu.Topic)
        (pl : List Nat),
      c.connected = false → pusu.Topic.Check t = .ok () →
      pusuclt.Client.Publish c cb t pl
          = (.error pusuclt.errNoConn, c, [])) := by
  refine ⟨fun c cb ths hconn hne => ⟨?_, ?_⟩, fun c cb t pl hconn hchk => ?_⟩
  · simp [pusuclt.Client.Subscribe, hne, hconn]
  · simp [pusuclt.Client.Unsubscribe, hne, hconn]
  · simp [pusuclt.Client.Publish, hchk, hconn]

/-- Witness for C9 (amended) at a concrete disconnected client. -/
theorem C9_not_connected_amended_witness :
    pusuclt.Client.Subscribe pusuclt.sampleDisconnectedClient none
        [{ Topic := ['/', 't'], Handler := 1 }]
      = (.error pusuclt.errNoConn, pusuclt.sampleDisconnectedClient, []) :=
  (C9_not_connected_amended.1 pusuclt.sampleDisconnectedClient none
    [{ Topic := ['/', 't'], Handler := 1 }] rfl (by simp)).1

/-- C10: Subscribe and Unsubscribe with an empty handler list return nil
immediately for every client, connected or not: the state is unchanged,
no callback is registered and nothing is sent. -/
theorem C10_empty_call_returns_nil :
    ∀ (c : pusuclt.Client) (cb : Option Nat),
      pusuclt.Client.Subscribe c cb [] = (.ok (), c, []) ∧
      pusuclt.Client.Unsubscribe c cb [] = (.ok (), c, []) :=
  fun c cb => ⟨rfl, rfl⟩

/-- C6: a Subscribe call that succeeds sends a wire-level Subscribe
message containing exactly the topics whose handler set went from absent
to present (all of them topics of the supplied pairs), sends nothing and
registers no callback when no topic is new; symmetrically a successful
Unsubscribe sends an Unsubscribe message containing exactly the topics
whose last handler was removed, and sends nothing (registering no
callback) when no set was emptied. -/
theorem C6_wire_messages :
    (∀ (c c2 : pusuclt.Client) (cb : Option Nat)
        (ths : List pusuclt.TopicHandler) (sent : List pusuclt.PMsg),
      pusuclt.Client.Subscribe c cb ths = (.ok (), c2, sent) →
      ((∀ t, t ∈ pusuclt.sentSubsTopics sent ↔
          (t ∈ pusuclt.keysA c2.handlers ∧
            t ∉ pusuclt.keysA c.handlers)) ∧
        (∀ t ∈ pusuclt.sentSubsTopics sent,
          t ∈ ths.map pusuclt.TopicHandler.Topic) ∧
        (pusuclt.sentSubsTopics sent = [] →
          sent = [] ∧ c2.callbacks = c.callbacks) ∧
        (sent ≠ [] → ∃ id ts,
          sent = [⟨pusu.Subscribe, id, .subs ts⟩]))) ∧
    (∀ (c c2 : pusuclt.Client) (cb : Option Nat)
        (ths : List pusuclt.TopicHandler) (sent : List pusuclt.PMsg),
      pusuclt.Client.Unsubscribe c cb ths = (.ok (), c2, sent) →
      ((∀ t, t ∈ pusuclt.sentSubsTopics sent ↔
          (t ∈ pusuclt.keysA c.handlers ∧
            t ∉ pusuclt.keysA c2.handlers)) ∧
        (∀ t ∈ pusuclt.sentSubsTopics sent,
          t ∈ ths.map pusuclt.TopicHandler.Topic) ∧
        (pusuclt.sentSubsTopics sent = [] →
          sent = [] ∧ c2.callbacks = c.callbacks) ∧
        (sent ≠ [] → ∃ id ts,
          sent = [⟨pusu.Unsubscribe, id, .subs ts⟩]))) := by
  constructor
  · intro c c2 cb ths sent h
    rw [pusuclt.Client.Subscribe] at h
    split at h
    · -- empty handler list: nothing is added and nothing sent
      injection h with h1 h2
      injection h2 with hc hs
      subst hc
      subst hs
      refine ⟨fun t => ?_, by simp [pusuclt.sentSubsTopics], ?_, by simp⟩
      · simp [pusuclt.sentSubsTopics]
      · intro _
        exact ⟨rfl, rfl⟩
    · split at h
      · cases h
      · split at h
        · cases h
        · next c1 subs heq =>
          obtain ⟨delta, hdelta, hkeys, hmem, hcb, hid, hcn⟩ :=
            pusuclt.subscribeLoop_ok ths c c1 [] subs heq
          simp only [List.nil_append] at hdelta
          subst hdelta
          split at h
          · next hsubs =>
            subst hsubs
            injection h with h1 h2
            injection h2 with hc hs
            subst hc
            subst hs
            simp only [List.append_nil] at hkeys
            refine ⟨fun t => ?_, by simp [pusuclt.sentSubsTopics], ?_,
              by simp⟩
            · simp [pusuclt.sentSubsTopics, hkeys]
            · intro _
              exact ⟨rfl, hcb⟩
          · next hsubs =>
            injection h with h1 h2
            injection h2 with hc hs
            subst hc
            subst hs
            have hsent : pusuclt.sentSubsTopics
                [⟨pusu.Subscribe, c1.msgID + 1, .subs subs⟩] = subs := by
              simp [pusuclt.sentSubsTopics]
            have hkeys2 : pusuclt.keysA
                (pusuclt.Client.addCallback
                  { c1 with msgID := c1.msgID + 1 }
                  (c1.msgID + 1) cb).handlers
                = pusuclt.keysA c.handlers ++ subs := by
              rw [pusuclt.addCallback_handlers]
              exact hkeys
            refine ⟨fun t => ?_, ?_, ?_, ?_⟩
            · rw [hsent, hkeys2]
              constructor
              · intro ht
                exact ⟨List.mem_append_right _ ht, (hmem t ht).1⟩
              · intro ⟨hin, hnin⟩
                exact (List.mem_append.mp hin).resolve_left hnin
            · rw [hsent]
              intro t ht
              exact (hmem t ht).2
            · rw [hsent]
              intro hd
              exact absurd hd hsubs
            · intro _
              exact ⟨c1.msgID + 1, subs, rfl⟩
  · intro c c2 cb ths sent h
    rw [pusuclt.Client.Unsubscribe] at h
    split at h
    · injection h with h1 h2
      injection h2 with hc hs
      subst hc
      subst hs
      refine ⟨fun t => ?_, by simp [pusuclt.sentSubsTopics], ?_, by simp⟩
      · simp [pusuclt.sentSubsTopics]
      · intro _
        exact ⟨rfl, rfl⟩
    · split at h
      · cases h
      · split at h
        · cases h
        · next c1 subs heq =>
          obtain ⟨delta, hdelta, hkeys, hmem, hcb, hid, hcn⟩ :=
            pusuclt.unsubscribeLoop_ok ths c c1 [] subs heq
          simp only [List.nil_append] at hdelta
          subst hdelta
          split at h
          · next hsubs =>
            subst hsubs
            injection h with h1 h2
            injection h2 with hc hs
            subst hc
            subst hs
            refine ⟨fun t => ?_, by simp [pusuclt.sentSubsTopics], ?_,
              by simp⟩
            · simp only [pusuclt.sentSubsTopics, List.map_nil,
                List.flatten_nil, List.not_mem_nil, false_iff, not_and,
                not_not]
              intro htc
              exact (hkeys t).mpr ⟨htc, by simp⟩
            · intro _
              exact ⟨rfl, hcb⟩
          · next hsubs =>
            injection h with h1 h2
            injection h2 with hc hs
            subst hc
            subst hs
            have hsent : pusuclt.sentSubsTopics
                [⟨pusu.Unsubscribe, c1.msgID + 1, .subs subs⟩] = subs := by
              simp [pusuclt.sentSubsTopics]
            have hkeys2 : pusuclt.keysA
                (pusuclt.Client.addCallback
                  { c1 with msgID := c1.msgID + 1 }
                  (c1.msgID + 1) cb).handlers
                = pusuclt.keysA c1.handlers := by
              rw [pusuclt.addCallback_handlers]
            refine ⟨fun t => ?_, ?_, ?_, ?_⟩
            · rw [hsent, hkeys2]
              constructor
              · intro ht
                refine ⟨(hmem t ht).1, fun hc2 => ?_⟩
                exact ((hkeys t).mp hc2).2 ht
              · intro ⟨hin, hnin⟩
                by_contra hnd
                exact hnin ((hkeys t).mpr ⟨hin, hnd⟩)
            · rw [hsent]
              intro t ht
              exact (hmem t ht).2
            · rw [hsent]
              intro hd
              exact absurd hd hsubs
            · intro _
              exact ⟨c1.msgID + 1, subs, rfl⟩

/-- Witness for C6 at a concrete call: subscribing handler 1 to the new
topic /t sends one Subscribe message carrying exactly /t. -/
theorem C6_wire_messages_witness :
    ['/', 't'] ∈ pusuclt.sentSubsTopics
        [⟨pusu.Subscribe, 2, .subs [['/', 't']]⟩] ↔
      (['/', 't'] ∈ pusuclt.keysA
          [(['/', 't'], (⟨[1], [(1, 0)]⟩ : pusuclt.handlerSet))] ∧
        ['/', 't'] ∉ pusuclt.keysA
          ([] : List (pusu.Topic × pusuclt.handlerSet))) := by
  have hsub : pusuclt.Client.Subscribe ⟨true, [], [], 1, none⟩ none
      [⟨['/', 't'], 1⟩]
      = (.ok (), ⟨true, [(['/', 't'], ⟨[1], [(1, 0)]⟩)], [], 2, none⟩,
          [⟨pusu.Subscribe, 2, .subs [['/', 't']]⟩]) := by
    simp [pusuclt.Client.Subscribe, pusuclt.subscribeLoop,
      pusuclt.Client.addHandler, pusuclt.TopicHandler.check,
      pusu.Topic.Check, pusu.pathClean, pusu.pathIsAbs, pusu.cleanLoop,
      pusuclt.handlerSet.addHandler, pusuclt.newHandlerSet,
      pusuclt.lookupA, pusuclt.updateA, pusuclt.Client.addCallback]
  exact (C6_wire_messages.1 _ _ none _ _ hsub).1 ['/', 't']
